import Mathlib

/-!
Shallow embedding of the pydeface defacing pipeline (pydeface/__main__.py):
numpy-style arrays with broadcasting, the masked-multiplication policy of
deface_image, the temporary-file lifecycle of a run, and the batch mask
application performed by main for the applyto images.
-/

set_option autoImplicit false

namespace Pydeface

/-- A numpy-style n-dimensional array: a shape together with the voxel data,
read off at integer multi-indices.  Voxel values are modelled as integers;
only element-wise products of voxels matter to the pipeline. -/
structure NDArray where
  shape : List Nat
  data : List Nat → Int

/-- idx is a valid multi-index for shape s. -/
def validIdx (s idx : List Nat) : Prop :=
  idx.length = s.length ∧ ∀ p ∈ List.zip idx s, p.1 < p.2

/-- Numpy broadcasting of two shapes, aligned at the trailing axis (both
shapes are given reversed).  Two dimensions are compatible when they are
equal or when one of them is 1, in which case the result is the other one. -/
def bcastRev : List Nat → List Nat → Option (List Nat)
  | [], ys => some ys
  | x :: xs, [] => some (x :: xs)
  | x :: xs, y :: ys =>
    if x = y then (bcastRev xs ys).map (fun r => x :: r)
    else if x = 1 then (bcastRev xs ys).map (fun r => y :: r)
    else if y = 1 then (bcastRev xs ys).map (fun r => x :: r)
    else none

/-- Numpy broadcasting of two shapes; none models the ValueError numpy
raises on incompatible shapes. -/
def broadcastShape (s t : List Nat) : Option (List Nat) :=
  (bcastRev s.reverse t.reverse).map List.reverse

/-- Project a multi-index of the broadcast result onto an operand of shape
s: keep the trailing s.length coordinates and send the coordinate of every
stretched (size-1) axis to 0. -/
def projIdx (s idx : List Nat) : List Nat :=
  List.zipWith (fun d i => if d = 1 then 0 else i) s
    (idx.drop (idx.length - s.length))

/-- Element-wise product of two arrays under numpy broadcasting; none
models the ValueError raised on incompatible shapes. -/
def bmul (a b : NDArray) : Option NDArray :=
  (broadcastShape a.shape b.shape).map fun sh =>
    ⟨sh, fun idx => a.data (projIdx a.shape idx) * b.data (projIdx b.shape idx)⟩

/-- Shape of numpy squeeze: every axis of size 1 is removed. -/
def squeezeShape : List Nat → List Nat
  | [] => []
  | d :: ds => if d = 1 then squeezeShape ds else d :: squeezeShape ds

/-- Map a multi-index of the squeezed array back to the original array by
re-inserting a 0 coordinate at every removed (size-1) axis. -/
def unsqueezeIdx : List Nat → List Nat → List Nat
  | [], _ => []
  | d :: ds, idx =>
    if d = 1 then 0 :: unsqueezeIdx ds idx
    else
      match idx with
      | [] => []
      | i :: rest => i :: unsqueezeIdx ds rest

/-- numpy ndarray.squeeze(): drop all size-1 axes. -/
def squeeze (a : NDArray) : NDArray :=
  ⟨squeezeShape a.shape, fun idx => a.data (unsqueezeIdx a.shape idx)⟩

/-- np.stack of t copies of m along a new trailing axis
(np.stack with a list of t equal arrays and axis -1). -/
def stackLast (m : NDArray) (t : Nat) : NDArray :=
  ⟨m.shape ++ [t], fun idx => m.data idx.dropLast⟩

/-- shape at position -1; none models the IndexError on a 0-d array. -/
def lastDim : List Nat → Option Nat
  | [] => none
  | [d] => some d
  | _ :: d :: ds => lastDim (d :: ds)

/-- Masked multiplication of deface_image (lines 76-83 of the source):
try the direct product of the squeezed subject data with the mask data; on
a broadcasting ValueError, replicate the mask along a new trailing axis to
the final axis length of the subject (np.stack of shape-at-minus-1 copies) and
multiply with the non-squeezed subject data.  none models an uncaught
exception: the fallback multiply failing, np.stack on an empty list of
copies when the final axis length is 0, or a 0-d subject. -/
def maskMultiply (infile mask : NDArray) : Option NDArray :=
  match bmul (squeeze infile) mask with
  | some r => some r
  | none =>
    match lastDim infile.shape with
    | none => none
    | some t => if t = 0 then none else bmul infile (stackLast mask t)

/-- A loaded volumetric image: voxel data plus its affine and header.
Affine and header are opaque tokens; the pipeline only copies them. -/
structure Image where
  data : NDArray
  affine : Nat
  header : Nat

/-- The files a single deface_image run touches, by role.  tmpBase1 and
tmpBase2 are the raw mkstemp files whose names get a .mat and a .nii.gz
suffix appended to form templateRegMat and warpedMask; templateReg and
warpedMaskMat are themselves mkstemp files handed to the registration
calls; outFile is the resolved defaced output path. -/
inductive FsPath
  | tmpBase1
  | tmpBase2
  | templateReg
  | warpedMaskMat
  | templateRegMat
  | warpedMask
  | outFile
deriving DecidableEq

/-- Abstract environment of one deface_image run: the overwrite situation,
the flags, whether each of the two registration-engine calls succeeds, the
subject image as loaded from disk, and the warped mask image that
registration step B writes and line 75 loads. -/
structure Env where
  outfileExists : Bool
  force : Bool
  nocleanup : Bool
  flirtAOk : Bool
  flirtBOk : Bool
  subjImg : Image
  maskImg : Image

/-- Observable outcome of one deface_image run: which of the files of the run
exist on disk afterwards, how many registration-engine calls were made,
and, on success, the saved output image paired with the in-memory warped
mask image the function returns. -/
structure RunOutcome where
  disk : List FsPath
  regCalls : Nat
  result : Option (Image × Image)

/-- Modelled from the spec: output_checks lives in pydeface.utils, which is
not under src.  Per the spec it resolves the final output path and fails
iff the target exists and overwriting is not permitted. -/
def output_checks (targetExists force : Bool) : Option Unit :=
  if targetExists && !force then none else some ()

/-- deface_image (lines 35-97 of the source), as a state transformer on the
files of the run.  Order of effects mirrors the source: output_checks before any
mkstemp; the four mkstemp files; registration step A writing the template
registration matrix and the registered template; step B writing the warped
mask and its by-product matrix; the masked multiplication; saving the
output with the own affine and header of the subject; then, unless nocleanup,
removing the warped mask, the registered template and the step-A matrix.
The function returns the warped mask image loaded in memory at line 75. -/
def deface_image (env : Env) : RunOutcome :=
  match output_checks env.outfileExists env.force with
  | none => ⟨[], 0, none⟩
  | some _ =>
    let d1 : List FsPath := [.tmpBase1, .tmpBase2, .templateReg, .warpedMaskMat]
    if env.flirtAOk = false then ⟨d1, 1, none⟩
    else
      let d2 := d1 ++ [.templateRegMat]
      if env.flirtBOk = false then ⟨d2, 2, none⟩
      else
        let d3 := d2 ++ [.warpedMask]
        match maskMultiply env.subjImg.data env.maskImg.data with
        | none => ⟨d3, 2, none⟩
        | some outdata =>
          let d4 := d3 ++ [.outFile]
          let d5 := if env.nocleanup then d4
            else ((d4.erase .warpedMask).erase .templateReg).erase .templateRegMat
          ⟨d5, 2, some (⟨outdata, env.subjImg.affine, env.subjImg.header⟩, env.maskImg)⟩

/-- The multiplication applied to each applyto image (line 155 of the
source): a plain broadcasting product of the loaded data with the mask
data, with no squeeze and no replication fallback. -/
def applyMul (subjData mask : NDArray) : Option NDArray :=
  bmul subjData mask

/-- One iteration of the applyto loop (lines 153-159): multiply the loaded
image by the in-memory mask data and save under the own affine and
header; none models the ValueError of an incompatible shape. -/
def applyOne (mask : NDArray) (f : Image) : Option Image :=
  (applyMul f.data mask).map fun o => ⟨o, f.affine, f.header⟩

/-- The applyto loop of main (lines 151-160): process the given images in
order; a none entry models a path whose load or output resolution raises.
Returns the list of outputs written to disk, in order, and whether the
whole batch completed; a failure aborts the remaining items but the
already-written outputs stay. -/
def applyLoop (mask : NDArray) : List (Option Image) → List Image × Bool
  | [] => ([], true)
  | none :: _ => ([], false)
  | some f :: rest =>
    match applyOne mask f with
    | none => ([], false)
    | some w =>
      let p := applyLoop mask rest
      (w :: p.1, p.2)

theorem bcastRev_self : ∀ xs : List Nat, bcastRev xs xs = some xs
  | [] => rfl
  | x :: xs => by simp [bcastRev, bcastRev_self xs]

theorem broadcastShape_self (s : List Nat) : broadcastShape s s = some s := by
  simp [broadcastShape, bcastRev_self]

theorem bcastRev_length (xs : List Nat) : ∀ ys r, bcastRev xs ys = some r →
    r.length = max xs.length ys.length := by
  induction xs with
  | nil =>
    intro ys r h
    simp only [bcastRev, Option.some.injEq] at h
    subst h; simp
  | cons x xs ih =>
    intro ys r h
    cases ys with
    | nil =>
      simp only [bcastRev, Option.some.injEq] at h
      subst h; simp
    | cons y ys =>
      simp only [bcastRev] at h
      split at h
      · obtain ⟨r', hr', rfl⟩ := Option.map_eq_some'.mp h
        have := ih ys r' hr'
        simp only [List.length_cons]
        omega
      · split at h
        · obtain ⟨r', hr', rfl⟩ := Option.map_eq_some'.mp h
          have := ih ys r' hr'
          simp only [List.length_cons]
          omega
        · split at h
          · obtain ⟨r', hr', rfl⟩ := Option.map_eq_some'.mp h
            have := ih ys r' hr'
            simp only [List.length_cons]
            omega
          · exact absurd h (by simp)

theorem broadcastShape_length (s t r : List Nat) (h : broadcastShape s t = some r) :
    r.length = max s.length t.length := by
  simp only [broadcastShape] at h
  obtain ⟨r', hr', rfl⟩ := Option.map_eq_some'.mp h
  have := bcastRev_length s.reverse t.reverse r' hr'
  simpa using this

theorem projIdx_length (s idx : List Nat) (h : s.length ≤ idx.length) :
    (projIdx s idx).length = s.length := by
  simp only [projIdx, List.length_zipWith, List.length_drop]
  omega

theorem projIdx_self (s idx : List Nat) (hlen : idx.length = s.length)
    (hlt : ∀ p ∈ List.zip idx s, p.1 < p.2) : projIdx s idx = idx := by
  have h0 : idx.length - s.length = 0 := by omega
  simp only [projIdx, h0, List.drop_zero]
  clear h0
  induction s generalizing idx with
  | nil =>
    cases idx with
    | nil => rfl
    | cons i rest => simp at hlen
  | cons d ds ih =>
    cases idx with
    | nil => simp at hlen
    | cons i rest =>
      have hi : i < d := hlt (i, d) (by simp)
      have htail : ∀ p ∈ List.zip rest ds, p.1 < p.2 := fun p hp =>
        hlt p (by simp [hp])
      have hone : (if d = 1 then 0 else i) = i := by
        rcases eq_or_ne d 1 with hd | hd
        · simp only [hd, if_pos]
          omega
        · simp [hd]
      simp only [List.zipWith_cons_cons, hone]
      rw [ih rest (by simpa using hlen) htail]

theorem unsqueezeIdx_id : ∀ (s idx : List Nat), 1 ∉ s → idx.length = s.length →
    unsqueezeIdx s idx = idx
  | [], [], _, _ => rfl
  | [], _ :: _, _, h => by simp at h
  | d :: ds, idx, h1, hlen => by
    have hd : d ≠ 1 := fun hc => h1 (hc ▸ List.mem_cons_self d ds)
    cases idx with
    | nil => simp at hlen
    | cons i rest =>
      simp only [unsqueezeIdx, if_neg hd]
      rw [unsqueezeIdx_id ds rest (fun hc => h1 (List.mem_cons_of_mem d hc))
        (by simpa using hlen)]

theorem squeezeShape_id : ∀ s : List Nat, 1 ∉ s → squeezeShape s = s
  | [], _ => rfl
  | d :: ds, h => by
    have hd : d ≠ 1 := fun hc => h (hc ▸ List.mem_cons_self d ds)
    simp only [squeezeShape, if_neg hd]
    rw [squeezeShape_id ds (fun hc => h (List.mem_cons_of_mem d hc))]

theorem squeezeShape_append : ∀ a b : List Nat,
    squeezeShape (a ++ b) = squeezeShape a ++ squeezeShape b
  | [], _ => rfl
  | d :: ds, b => by
    have ih := squeezeShape_append ds b
    simp only [List.cons_append, squeezeShape, ih]
    split <;> simp [ih]

theorem bmul_shape (a b : NDArray) (sh : List Nat)
    (h : broadcastShape a.shape b.shape = some sh) :
    (bmul a b).map NDArray.shape = some sh := by
  simp [bmul, h]

theorem maskMultiply_of_direct (infile mask r : NDArray)
    (h : bmul (squeeze infile) mask = some r) :
    maskMultiply infile mask = some r := by
  unfold maskMultiply
  rw [h]

theorem maskMultiply_of_fallback (infile mask : NDArray) (t : Nat)
    (h : bmul (squeeze infile) mask = none) (hld : lastDim infile.shape = some t)
    (ht : t ≠ 0) : maskMultiply infile mask = bmul infile (stackLast mask t) := by
  unfold maskMultiply
  rw [h, hld]
  show (if t = 0 then none else bmul infile (stackLast mask t)) =
    bmul infile (stackLast mask t)
  rw [if_neg ht]

theorem validIdx3 (X Y Z x y z : Nat) (hx : x < X) (hy : y < Y) (hz : z < Z) :
    validIdx [X, Y, Z] [x, y, z] := by
  refine ⟨rfl, ?_⟩
  intro p hp
  simp only [List.zip_cons_cons, List.zip_nil_right, List.mem_cons,
    List.not_mem_nil, or_false] at hp
  rcases hp with rfl | rfl | rfl <;> assumption

theorem validIdx4 (X Y Z T x y z t : Nat) (hx : x < X) (hy : y < Y)
    (hz : z < Z) (ht : t < T) : validIdx [X, Y, Z, T] [x, y, z, t] := by
  refine ⟨rfl, ?_⟩
  intro p hp
  simp only [List.zip_cons_cons, List.zip_nil_right, List.mem_cons,
    List.not_mem_nil, or_false] at hp
  rcases hp with rfl | rfl | rfl | rfl <;> assumption

/-- Direct multiplication after squeeze, when the mask shape equals the
subject shape and the subject has no singleton dimension: the product
exists, keeps the subject shape, and is the element-wise product. -/
theorem bmul_squeeze_eq (subj mask : NDArray) (h1 : mask.shape = subj.shape)
    (h2 : (1 : Nat) ∉ subj.shape) :
    ∃ out, bmul (squeeze subj) mask = some out ∧ out.shape = subj.shape ∧
      ∀ idx, validIdx subj.shape idx → out.data idx = subj.data idx * mask.data idx := by
  have hsq : squeezeShape subj.shape = subj.shape := squeezeShape_id subj.shape h2
  have hb : broadcastShape (squeeze subj).shape mask.shape = some subj.shape := by
    show broadcastShape (squeezeShape subj.shape) mask.shape = some subj.shape
    rw [hsq, h1]
    exact broadcastShape_self _
  refine ⟨⟨subj.shape, fun idx =>
    (squeeze subj).data (projIdx (squeeze subj).shape idx) *
      mask.data (projIdx mask.shape idx)⟩, ?_, rfl, ?_⟩
  · simp [bmul, hb]
  · intro idx hv
    obtain ⟨hlen, hlt⟩ := hv
    have hps : projIdx subj.shape idx = idx := projIdx_self _ _ hlen hlt
    show subj.data (unsqueezeIdx subj.shape
        (projIdx (squeezeShape subj.shape) idx)) *
      mask.data (projIdx mask.shape idx) = subj.data idx * mask.data idx
    rw [hsq, h1, hps, unsqueezeIdx_id subj.shape idx h2 hlen]

/-- The broadcast fallback of the masked multiplication: when the direct
squeezed product fails, the mask is stacked to the final subject axis
length and multiplied with the non-squeezed subject data. -/
theorem maskMultiply_fallback (subj mask : NDArray) (X Y Z T : Nat)
    (hs : subj.shape = [X, Y, Z, T]) (hm : mask.shape = [X, Y, Z]) (hT : 0 < T)
    (hfail : bmul (squeeze subj) mask = none) :
    ∃ out, maskMultiply subj mask = some out ∧ out.shape = [X, Y, Z, T] ∧
      ∀ x y z t, x < X → y < Y → z < Z → t < T →
        out.data [x, y, z, t] = subj.data [x, y, z, t] * mask.data [x, y, z] := by
  have hld : lastDim subj.shape = some T := by rw [hs]; rfl
  have hstsh : (stackLast mask T).shape = [X, Y, Z, T] := by
    simp [stackLast, hm]
  have hb : broadcastShape subj.shape (stackLast mask T).shape = some [X, Y, Z, T] := by
    rw [hs, hstsh]
    exact broadcastShape_self _
  have hbm : bmul subj (stackLast mask T) = some ⟨[X, Y, Z, T], fun idx =>
      subj.data (projIdx subj.shape idx) *
        (stackLast mask T).data (projIdx (stackLast mask T).shape idx)⟩ := by
    simp [bmul, hb]
  refine ⟨⟨[X, Y, Z, T], fun idx =>
    subj.data (projIdx subj.shape idx) *
      (stackLast mask T).data (projIdx (stackLast mask T).shape idx)⟩, ?_, rfl, ?_⟩
  · rw [maskMultiply_of_fallback subj mask T hfail hld (by omega)]
    exact hbm
  · intro x y z t hx hy hz ht
    have hv1 : projIdx subj.shape [x, y, z, t] = [x, y, z, t] := by
      rw [hs]
      obtain ⟨hlen, hlt⟩ := validIdx4 X Y Z T x y z t hx hy hz ht
      exact projIdx_self _ _ hlen hlt
    have hv2 : projIdx (stackLast mask T).shape [x, y, z, t] = [x, y, z, t] := by
      rw [hstsh]
      obtain ⟨hlen, hlt⟩ := validIdx4 X Y Z T x y z t hx hy hz ht
      exact projIdx_self _ _ hlen hlt
    show subj.data (projIdx subj.shape [x, y, z, t]) *
      (stackLast mask T).data (projIdx (stackLast mask T).shape [x, y, z, t]) =
        subj.data [x, y, z, t] * mask.data [x, y, z]
    rw [hv1, hv2]
    rfl

/-- Concrete 4D subject for the C1 witness. -/
def wSubjC1 : NDArray := ⟨[2, 2, 2, 3], fun idx => (idx.sum : Int) + 1⟩

/-- Concrete 3D mask for the C1 witness. -/
def wMaskC1 : NDArray := ⟨[2, 2, 2], fun idx => (idx.sum : Int) + 2⟩

/-- C1: for a subject volume of shape (X,Y,Z,T) whose direct (squeezed)
multiplication with a 3D mask of shape (X,Y,Z) fails with a shape
mismatch, deface_image replicates the mask along a new trailing axis to
length T and multiplies element-wise, so Output[x,y,z,t] =
Subject[x,y,z,t] * Mask[x,y,z]; and the fallback triggers only on the
shape-mismatch condition: whenever the direct multiplication succeeds its
result is returned unchanged. -/
theorem C1_broadcast_fallback (subj mask : NDArray) (X Y Z T : Nat)
    (hs : subj.shape = [X, Y, Z, T]) (hm : mask.shape = [X, Y, Z]) (hT : 0 < T) :
    (∀ r, bmul (squeeze subj) mask = some r → maskMultiply subj mask = some r) ∧
    (bmul (squeeze subj) mask = none →
      ∃ out, maskMultiply subj mask = some out ∧ out.shape = [X, Y, Z, T] ∧
        ∀ x y z t, x < X → y < Y → z < Z → t < T →
          out.data [x, y, z, t] = subj.data [x, y, z, t] * mask.data [x, y, z]) := by
  constructor
  · intro r hr
    exact maskMultiply_of_direct subj mask r hr
  · intro hfail
    exact maskMultiply_fallback subj mask X Y Z T hs hm hT hfail

/-- Witness for C1 at the concrete subject of shape [2,2,2,3] and mask of
shape [2,2,2], whose direct squeezed multiplication is a shape mismatch. -/
theorem C1_broadcast_fallback_witness :
    (maskMultiply wSubjC1 wMaskC1).map NDArray.shape = some [2, 2, 2, 3] ∧
    (maskMultiply wSubjC1 wMaskC1).map (fun o => o.data [1, 0, 1, 2]) =
      some (wSubjC1.data [1, 0, 1, 2] * wMaskC1.data [1, 0, 1]) := by
  obtain ⟨out, ho, hsh, hd⟩ :=
    (C1_broadcast_fallback wSubjC1 wMaskC1 2 2 2 3 rfl rfl (by decide)).2 rfl
  rw [ho]
  constructor
  · rw [Option.map_some', hsh]
  · rw [Option.map_some', hd 1 0 1 2 (by decide) (by decide) (by decide) (by decide)]

/-- Concrete subject with a trailing singleton dimension for the C2
counterexample. -/
def cSubjC2 : NDArray := ⟨[2, 2, 2, 1], fun idx => (idx.sum : Int) + 1⟩

/-- Concrete 3D mask for the C2 counterexample. -/
def cMaskC2 : NDArray := ⟨[2, 2, 2], fun idx => (idx.sum : Int) + 2⟩

/-- C2 counterexample: for a subject of shape [2,2,2,1] and a mask of shape
[2,2,2] the run succeeds, but the output shape is the squeezed [2,2,2],
not the original subject shape [2,2,2,1]: the claim fails exactly for a
subject with a trailing singleton dimension. -/
theorem C2_counterexample :
    ((maskMultiply cSubjC2 cMaskC2).map NDArray.shape).isSome = true ∧
    (maskMultiply cSubjC2 cMaskC2).map NDArray.shape ≠ some cSubjC2.shape ∧
    (maskMultiply cSubjC2 cMaskC2).map NDArray.shape = some [2, 2, 2] := by
  refine ⟨?_, ?_, ?_⟩ <;> decide

/-- C2 (amended): the output shape equals the subject input shape in the
3D direct case with no singleton dimension and in the 4D broadcast
fallback case; but when the subject has a trailing singleton dimension
(shape (X,Y,Z,1)) the direct path collapses it and the output shape is
(X,Y,Z), not the original shape. -/
theorem C2_shape_preservation (subj mask : NDArray) (X Y Z T : Nat)
    (hm : mask.shape = [X, Y, Z]) :
    (subj.shape = [X, Y, Z] → (1 : Nat) ∉ subj.shape →
      (maskMultiply subj mask).map NDArray.shape = some subj.shape) ∧
    (subj.shape = [X, Y, Z, T] → 0 < T → bmul (squeeze subj) mask = none →
      (maskMultiply subj mask).map NDArray.shape = some subj.shape) ∧
    (subj.shape = [X, Y, Z, 1] → (1 : Nat) ∉ ([X, Y, Z] : List Nat) →
      (maskMultiply subj mask).map NDArray.shape = some [X, Y, Z]) := by
  refine ⟨?_, ?_, ?_⟩
  · intro hs h1
    obtain ⟨out, hb, hsh, _⟩ := bmul_squeeze_eq subj mask (hm.trans hs.symm) h1
    rw [maskMultiply_of_direct subj mask out hb, Option.map_some', hsh]
  · intro hs hT hfail
    obtain ⟨out, ho, hsh, _⟩ := maskMultiply_fallback subj mask X Y Z T hs hm hT hfail
    rw [ho, Option.map_some', hsh, hs]
  · intro hs h1
    have hsq : squeezeShape subj.shape = [X, Y, Z] := by
      rw [hs]
      show squeezeShape ([X, Y, Z] ++ [1]) = [X, Y, Z]
      rw [squeezeShape_append, squeezeShape_id [X, Y, Z] h1]
      rfl
    have hb : broadcastShape (squeeze subj).shape mask.shape = some [X, Y, Z] := by
      show broadcastShape (squeezeShape subj.shape) mask.shape = some [X, Y, Z]
      rw [hsq, hm]
      exact broadcastShape_self _
    have hbm : bmul (squeeze subj) mask = some ⟨[X, Y, Z], fun idx =>
        (squeeze subj).data (projIdx (squeeze subj).shape idx) *
          mask.data (projIdx mask.shape idx)⟩ := by
      simp [bmul, hb]
    rw [maskMultiply_of_direct subj mask _ hbm, Option.map_some']

/-- Witness for C2 (amended): the fallback case at shapes [2,2,2,3] and
[2,2,2], and the trailing-singleton case at shape [2,2,2,1]. -/
theorem C2_shape_preservation_witness :
    (maskMultiply wSubjC1 wMaskC1).map NDArray.shape = some wSubjC1.shape ∧
    (maskMultiply cSubjC2 cMaskC2).map NDArray.shape = some [2, 2, 2] := by
  constructor
  · exact (C2_shape_preservation wSubjC1 wMaskC1 2 2 2 3 rfl).2.1 rfl
      (by decide) rfl
  · exact (C2_shape_preservation cSubjC2 cMaskC2 2 2 2 3 rfl).2.2 rfl (by decide)

/-- Concrete subject with an inner (non-trailing) singleton dimension for
the C6 counterexample. -/
def cSubjC6 : NDArray := ⟨[2, 1, 2], fun idx => (idx.sum : Int) + 1⟩

/-- Concrete mask of the same shape for the C6 counterexample. -/
def cMaskC6 : NDArray := ⟨[2, 1, 2], fun idx => (idx.sum : Int) + 2⟩

/-- C6 counterexample: the direct path squeezes ALL singleton dimensions,
not only trailing ones.  For a subject of shape [2,1,2] the squeezed shape
is [2,2] (the inner singleton axis is collapsed although it is not
trailing), and multiplying with a mask of the equal shape [2,1,2] then
broadcasts to an output of shape [2,2,2] instead of [2,1,2]. -/
theorem C6_counterexample :
    (squeeze cSubjC6).shape = [2, 2] ∧ cSubjC6.shape = [2, 1, 2] ∧
    (maskMultiply cSubjC6 cMaskC6).map NDArray.shape = some [2, 2, 2] := by
  refine ⟨?_, ?_, ?_⟩ <;> decide

/-- C6 (amended): the direct multiplication path collapses ALL singleton
dimensions of the subject data (numpy squeeze), not only trailing ones;
for a subject of shape (X,Y,Z) and a mask of shape (X,Y,Z) with no
singleton dimension, the Output Volume equals Subject * Mask exactly,
element-wise. -/
theorem C6_direct_multiply (subj mask : NDArray) (X Y Z : Nat)
    (hs : subj.shape = [X, Y, Z]) (hm : mask.shape = [X, Y, Z])
    (h1 : (1 : Nat) ∉ subj.shape) :
    ∃ out, maskMultiply subj mask = some out ∧ out.shape = [X, Y, Z] ∧
      ∀ x y z, x < X → y < Y → z < Z →
        out.data [x, y, z] = subj.data [x, y, z] * mask.data [x, y, z] := by
  obtain ⟨out, hb, hsh, hdata⟩ := bmul_squeeze_eq subj mask (hm.trans hs.symm) h1
  refine ⟨out, maskMultiply_of_direct subj mask out hb, hsh.trans hs, ?_⟩
  intro x y z hx hy hz
  apply hdata
  rw [hs]
  exact validIdx3 X Y Z x y z hx hy hz

/-- Concrete subject for the C6 witness. -/
def wSubjC6 : NDArray := ⟨[2, 2, 2], fun idx => (idx.sum : Int) + 3⟩

/-- Concrete mask for the C6 witness. -/
def wMaskC6 : NDArray := ⟨[2, 2, 2], fun idx => (idx.sum : Int) + 5⟩

/-- Witness for C6 (amended) at concrete arrays of shape [2,2,2]. -/
theorem C6_direct_multiply_witness :
    (maskMultiply wSubjC6 wMaskC6).map NDArray.shape = some [2, 2, 2] ∧
    (maskMultiply wSubjC6 wMaskC6).map (fun o => o.data [1, 0, 1]) =
      some (wSubjC6.data [1, 0, 1] * wMaskC6.data [1, 0, 1]) := by
  obtain ⟨out, ho, hsh, hd⟩ :=
    C6_direct_multiply wSubjC6 wMaskC6 2 2 2 rfl rfl (by decide)
  rw [ho]
  constructor
  · rw [Option.map_some', hsh]
  · rw [Option.map_some', hd 1 0 1 (by decide) (by decide) (by decide)]

/-- Concrete 4D companion image data for the C4 counterexample. -/
def cSubjC4 : NDArray := ⟨[2, 2, 2, 3], fun idx => (idx.sum : Int) + 7⟩

/-- Concrete 3D mask data for the C4 counterexample. -/
def cMaskC4 : NDArray := ⟨[2, 2, 2], fun idx => (idx.sum : Int) + 9⟩

/-- C4 counterexample: the batch multiplication (a plain broadcasting
product, line 155) is NOT the same dimensionality policy as the primary
run masked multiplication: on a 4D companion of shape [2,2,2,3] with a
3D mask of shape [2,2,2], the primary policy succeeds via the replication
fallback, while the batch multiplication raises a shape-mismatch error. -/
theorem C4_counterexample :
    (applyMul cSubjC4 cMaskC4).isNone = true ∧
    (maskMultiply cSubjC4 cMaskC4).isNone = false := by
  refine ⟨?_, ?_⟩ <;> decide

/-- C4 (amended): the batch step multiplies the loaded volume by the mask
with a plain broadcasting product, with no squeeze and no replication
fallback; it agrees with the primary-run policy whenever the companion
volume has no singleton dimension and the plain product is defined: in
that case the primary policy returns a result with the same shape and the
same voxel values. -/
theorem C4_batch_policy (subj mask : NDArray) (h1 : (1 : Nat) ∉ subj.shape)
    (r : NDArray) (h2 : applyMul subj mask = some r) :
    ∃ q, maskMultiply subj mask = some q ∧ q.shape = r.shape ∧
      ∀ idx, idx.length = r.shape.length → q.data idx = r.data idx := by
  have h2' : bmul subj mask = some r := h2
  obtain ⟨sh, hb, hr⟩ : ∃ sh, broadcastShape subj.shape mask.shape = some sh ∧
      (⟨sh, fun idx => subj.data (projIdx subj.shape idx) *
        mask.data (projIdx mask.shape idx)⟩ : NDArray) = r := by
    simp only [bmul, Option.map_eq_some'] at h2'
    obtain ⟨sh, hsh, hr⟩ := h2'
    exact ⟨sh, hsh, hr⟩
  have hsq : squeezeShape subj.shape = subj.shape := squeezeShape_id subj.shape h1
  have hb' : broadcastShape (squeeze subj).shape mask.shape = some sh := by
    show broadcastShape (squeezeShape subj.shape) mask.shape = some sh
    rw [hsq]
    exact hb
  have hbm : bmul (squeeze subj) mask = some ⟨sh, fun idx =>
      (squeeze subj).data (projIdx (squeeze subj).shape idx) *
        mask.data (projIdx mask.shape idx)⟩ := by
    simp [bmul, hb']
  have hlen : sh.length = max subj.shape.length mask.shape.length :=
    broadcastShape_length _ _ _ hb
  refine ⟨_, maskMultiply_of_direct subj mask _ hbm, ?_, ?_⟩
  · show sh = r.shape
    rw [← hr]
  · intro idx hidx
    rw [← hr] at hidx
    show (squeeze subj).data (projIdx (squeeze subj).shape idx) *
      mask.data (projIdx mask.shape idx) = r.data idx
    rw [← hr]
    show subj.data (unsqueezeIdx subj.shape
        (projIdx (squeezeShape subj.shape) idx)) *
      mask.data (projIdx mask.shape idx) =
      subj.data (projIdx subj.shape idx) * mask.data (projIdx mask.shape idx)
    rw [hsq]
    rw [unsqueezeIdx_id subj.shape (projIdx subj.shape idx) h1
      (projIdx_length subj.shape idx (by simp at hidx; omega))]

/-- Concrete data for the C4 witness: a companion of shape [2,2,3] and a
mask of shape [2,2,3], where batch and primary policies agree. -/
def wSubjC4 : NDArray := ⟨[2, 2, 3], fun idx => (idx.sum : Int) + 4⟩

/-- Concrete mask data for the C4 witness. -/
def wMaskC4 : NDArray := ⟨[2, 2, 3], fun idx => (idx.sum : Int) + 6⟩

/-- Witness for C4 (amended): at shape [2,2,3] the primary policy result
has the same shape as the plain batch product. -/
theorem C4_batch_policy_witness :
    (maskMultiply wSubjC4 wMaskC4).map NDArray.shape =
      (applyMul wSubjC4 wMaskC4).map NDArray.shape := by
  obtain ⟨r, hr⟩ : ∃ r, applyMul wSubjC4 wMaskC4 = some r := ⟨_, rfl⟩
  obtain ⟨q, hq, hsh, _⟩ := C4_batch_policy wSubjC4 wMaskC4 (by decide) r hr
  rw [hq, hr, Option.map_some', Option.map_some', hsh]

theorem deface_image_noout (env : Env)
    (h : output_checks env.outfileExists env.force = none) :
    deface_image env = ⟨[], 0, none⟩ := by
  unfold deface_image
  rw [h]

theorem deface_image_failA (env : Env)
    (hoc : output_checks env.outfileExists env.force = some ())
    (ha : env.flirtAOk = false) :
    deface_image env =
      ⟨[.tmpBase1, .tmpBase2, .templateReg, .warpedMaskMat], 1, none⟩ := by
  unfold deface_image
  rw [hoc, ha]
  rfl

theorem deface_image_failB (env : Env)
    (hoc : output_checks env.outfileExists env.force = some ())
    (ha : env.flirtAOk = true) (hb : env.flirtBOk = false) :
    deface_image env =
      ⟨[.tmpBase1, .tmpBase2, .templateReg, .warpedMaskMat, .templateRegMat],
        2, none⟩ := by
  unfold deface_image
  rw [hoc, ha, hb]
  rfl

theorem deface_image_failMul (env : Env)
    (hoc : output_checks env.outfileExists env.force = some ())
    (ha : env.flirtAOk = true) (hb : env.flirtBOk = true)
    (hm : maskMultiply env.subjImg.data env.maskImg.data = none) :
    deface_image env =
      ⟨[.tmpBase1, .tmpBase2, .templateReg, .warpedMaskMat, .templateRegMat,
        .warpedMask], 2, none⟩ := by
  unfold deface_image
  rw [hoc, ha, hb, hm]
  rfl

theorem deface_image_success (env : Env) (outdata : NDArray)
    (hoc : output_checks env.outfileExists env.force = some ())
    (ha : env.flirtAOk = true) (hb : env.flirtBOk = true)
    (hm : maskMultiply env.subjImg.data env.maskImg.data = some outdata) :
    deface_image env =
      ⟨if env.nocleanup then
          [.tmpBase1, .tmpBase2, .templateReg, .warpedMaskMat, .templateRegMat,
            .warpedMask, .outFile]
        else [.tmpBase1, .tmpBase2, .warpedMaskMat, .outFile], 2,
        some (⟨outdata, env.subjImg.affine, env.subjImg.header⟩, env.maskImg)⟩ := by
  unfold deface_image
  rw [hoc, ha, hb, hm]
  cases hnc : env.nocleanup <;> rfl

theorem deface_image_success_inv (env : Env)
    (hs : (deface_image env).result.isSome = true) :
    output_checks env.outfileExists env.force = some () ∧
    env.flirtAOk = true ∧ env.flirtBOk = true ∧
    ∃ outdata, maskMultiply env.subjImg.data env.maskImg.data = some outdata := by
  cases hoc : output_checks env.outfileExists env.force with
  | none =>
    rw [deface_image_noout env hoc] at hs
    simp at hs
  | some u =>
    cases u
    cases ha : env.flirtAOk with
    | false =>
      rw [deface_image_failA env hoc ha] at hs
      simp at hs
    | true =>
      cases hb : env.flirtBOk with
      | false =>
        rw [deface_image_failB env hoc ha hb] at hs
        simp at hs
      | true =>
        cases hm : maskMultiply env.subjImg.data env.maskImg.data with
        | none =>
          rw [deface_image_failMul env hoc ha hb hm] at hs
          simp at hs
        | some outdata => exact ⟨rfl, rfl, rfl, outdata, rfl⟩

/-- Concrete subject image for the run-level witnesses. -/
def imgS : Image := ⟨⟨[2, 2, 2], fun idx => (idx.sum : Int) + 1⟩, 31, 32⟩

/-- Concrete warped mask image for the run-level witnesses. -/
def imgM : Image := ⟨⟨[2, 2, 2], fun idx => (idx.sum : Int) + 2⟩, 33, 34⟩

/-- A run environment where everything succeeds and cleanup is enabled. -/
def envOk : Env := ⟨false, false, false, true, true, imgS, imgM⟩

/-- The same run environment with cleanup disabled. -/
def envOk2 : Env := ⟨false, false, true, true, true, imgS, imgM⟩

/-- A run environment whose output path already exists, without force. -/
def envC7 : Env := ⟨true, false, false, true, true, imgS, imgM⟩

/-- A run environment where registration step A fails. -/
def envC9 : Env := ⟨false, false, false, false, true, imgS, imgM⟩

/-- C3 counterexample: on a successful run with cleanup enabled the warped
mask file IS removed from disk (the source removes it at line 92) and the
step-B by-product matrix file is NOT removed (it is absent from lines
92-94), contradicting both halves of the claim. -/
theorem C3_counterexample :
    (deface_image envOk).result.isSome = true ∧
    FsPath.warpedMask ∉ (deface_image envOk).disk ∧
    FsPath.warpedMaskMat ∈ (deface_image envOk).disk := by
  refine ⟨?_, ?_, ?_⟩ <;> decide

/-- C3 (amended): on every successful run with cleanup enabled, the
registered-template volume, the step-A transform matrix and the warped
mask file are deleted from disk, while the step-B by-product matrix file
remains, as does the defaced output; batch reuse relies on the in-memory
mask, not on the warped mask file. -/
theorem C3_cleanup (env : Env) (hnc : env.nocleanup = false)
    (hs : (deface_image env).result.isSome = true) :
    FsPath.warpedMask ∉ (deface_image env).disk ∧
    FsPath.templateReg ∉ (deface_image env).disk ∧
    FsPath.templateRegMat ∉ (deface_image env).disk ∧
    FsPath.warpedMaskMat ∈ (deface_image env).disk ∧
    FsPath.outFile ∈ (deface_image env).disk := by
  obtain ⟨hoc, ha, hb, outdata, hm⟩ := deface_image_success_inv env hs
  rw [deface_image_success env outdata hoc ha hb hm, hnc]
  simp

/-- Witness for C3 (amended) at the concrete all-success environment. -/
theorem C3_cleanup_witness :
    FsPath.templateRegMat ∉ (deface_image envOk).disk ∧
    FsPath.outFile ∈ (deface_image envOk).disk := by
  have h := C3_cleanup envOk rfl (by decide)
  exact ⟨h.2.2.1, h.2.2.2.2⟩

/-- C5: on every successful run the saved output carries the subject
own affine and header of the subject image exactly, and every batch-applied
companion output carries the own affine and header of that companion. -/
theorem C5_affine_header (env : Env) (p : Image × Image)
    (h : (deface_image env).result = some p) :
    (p.1.affine = env.subjImg.affine ∧ p.1.header = env.subjImg.header) ∧
    ∀ mask f w, applyOne mask f = some w →
      w.affine = f.affine ∧ w.header = f.header := by
  constructor
  · have hs : (deface_image env).result.isSome = true := by rw [h]; rfl
    obtain ⟨hoc, ha, hb, outdata, hm⟩ := deface_image_success_inv env hs
    rw [deface_image_success env outdata hoc ha hb hm] at h
    have h2 : some ((⟨outdata, env.subjImg.affine, env.subjImg.header⟩ : Image),
        env.maskImg) = some p := h
    cases Option.some.inj h2
    exact ⟨rfl, rfl⟩
  · intro mask f w hw
    simp only [applyOne, applyMul, Option.map_eq_some'] at hw
    obtain ⟨o, _, hw⟩ := hw
    cases hw
    exact ⟨rfl, rfl⟩

/-- Witness for C5 at the concrete all-success environment. -/
theorem C5_affine_header_witness :
    (deface_image envOk).result.map (fun p => (p.1.affine, p.1.header)) =
      some (envOk.subjImg.affine, envOk.subjImg.header) := by
  obtain ⟨p, hp⟩ : ∃ p, (deface_image envOk).result = some p := ⟨_, rfl⟩
  rw [hp, Option.map_some']
  have h := (C5_affine_header envOk p hp).1
  rw [h.1, h.2]

/-- C7: if the resolved output path already exists and overwriting is not
permitted, the run fails with no registration call and no temporary
artifact created; with the overwrite override, a successful run writes
the output file. -/
theorem C7_overwrite_policy (env : Env) (h : env.outfileExists = true) :
    (env.force = false →
      (deface_image env).regCalls = 0 ∧ (deface_image env).disk = [] ∧
        (deface_image env).result = none) ∧
    (env.force = true → (deface_image env).result.isSome = true →
      FsPath.outFile ∈ (deface_image env).disk) := by
  constructor
  · intro hf
    have hoc : output_checks env.outfileExists env.force = none := by
      rw [h, hf]
      rfl
    rw [deface_image_noout env hoc]
    exact ⟨rfl, rfl, rfl⟩
  · intro hf hs
    obtain ⟨hoc, ha, hb, outdata, hm⟩ := deface_image_success_inv env hs
    rw [deface_image_success env outdata hoc ha hb hm]
    cases hnc : env.nocleanup <;> simp

/-- Witness for C7: the no-force branch at the concrete environment whose
output path exists. -/
theorem C7_overwrite_policy_witness :
    (deface_image envC7).regCalls = 0 ∧ (deface_image envC7).disk = [] ∧
      (deface_image envC7).result = none :=
  (C7_overwrite_policy envC7 rfl).1 rfl

/-- C8: the batch loop processes the given image list in order; a load
failure or a shape failure at one item stops the whole remaining batch,
while the outputs of the items already processed remain (exactly the
in-order results of the prefix before the failing item). -/
theorem C8_batch_order (mask : NDArray) (pre : List Image) (bad : Option Image)
    (post : List (Option Image))
    (hpre : ∀ f ∈ pre, (applyOne mask f).isSome = true)
    (hbad : ∀ f, bad = some f → applyOne mask f = none) :
    applyLoop mask (pre.map some ++ bad :: post) =
      (pre.filterMap (applyOne mask), false) := by
  induction pre with
  | nil =>
    simp only [List.map_nil, List.nil_append, List.filterMap_nil]
    cases bad with
    | none => rfl
    | some f =>
      have hf := hbad f rfl
      simp [applyLoop, hf]
  | cons f fs ih =>
    have hf : (applyOne mask f).isSome = true := hpre f (List.mem_cons_self f fs)
    obtain ⟨w, hw⟩ := Option.isSome_iff_exists.mp hf
    simp only [List.map_cons, List.cons_append, applyLoop, hw,
      List.filterMap_cons, List.append_eq]
    rw [ih (fun g hg => hpre g (List.mem_cons_of_mem f hg))]

/-- Concrete companion images and mask for the C8 witness: the second item
has an incompatible shape, the third is never reached. -/
def wImgA : Image := ⟨⟨[2, 2], fun idx => (idx.sum : Int) + 1⟩, 21, 22⟩

/-- Concrete failing companion image for the C8 witness. -/
def wImgBad : Image := ⟨⟨[2, 3], fun idx => (idx.sum : Int) + 2⟩, 23, 24⟩

/-- Concrete trailing companion image for the C8 witness. -/
def wImgC : Image := ⟨⟨[2, 2], fun idx => (idx.sum : Int) + 3⟩, 25, 26⟩

/-- Concrete mask data for the C8 witness. -/
def wMaskC8 : NDArray := ⟨[2, 2], fun idx => (idx.sum : Int) + 4⟩

/-- Witness for C8: a batch of three items whose second has an
incompatible shape writes exactly the first output and aborts. -/
theorem C8_batch_order_witness :
    applyLoop wMaskC8 ([wImgA].map some ++ some wImgBad :: [some wImgC]) =
      ([wImgA].filterMap (applyOne wMaskC8), false) := by
  apply C8_batch_order
  · intro f hf
    rw [List.mem_singleton] at hf
    subst hf
    rfl
  · intro f hfe
    cases Option.some.inj hfe
    rfl

/-- C9: when registration step A fails (with the output path resolved), the
run aborts with exactly one registration call (no retry), produces no
result, and neither the defaced output file nor the warped-mask file is on
disk. -/
theorem C9_registration_failure (env : Env) (ha : env.flirtAOk = false)
    (hoc : output_checks env.outfileExists env.force = some ()) :
    (deface_image env).result = none ∧ (deface_image env).regCalls = 1 ∧
    FsPath.outFile ∉ (deface_image env).disk ∧
    FsPath.warpedMask ∉ (deface_image env).disk := by
  rw [deface_image_failA env hoc ha]
  exact ⟨rfl, rfl, by decide, by decide⟩

/-- Witness for C9 at the concrete step-A-failure environment. -/
theorem C9_registration_failure_witness :
    (deface_image envC9).result = none ∧ (deface_image envC9).regCalls = 1 ∧
    FsPath.outFile ∉ (deface_image envC9).disk ∧
    FsPath.warpedMask ∉ (deface_image envC9).disk :=
  C9_registration_failure envC9 rfl rfl

/-- C10: the returned warped mask is the in-memory image loaded before
cleanup; the run result (output and returned mask) is independent of the
cleanup flag, hence of whether the warped-mask file still exists on disk,
and batch application uses only that in-memory data, so it yields the same
outputs either way. -/
theorem C10_mask_reuse (e1 e2 : Env)
    (hoe : e1.outfileExists = e2.outfileExists) (hfo : e1.force = e2.force)
    (ha : e1.flirtAOk = e2.flirtAOk) (hb : e1.flirtBOk = e2.flirtBOk)
    (hsi : e1.subjImg = e2.subjImg) (hmi : e1.maskImg = e2.maskImg)
    (p : Image × Image) (h : (deface_image e1).result = some p) :
    (deface_image e2).result = some p ∧ p.2 = e1.maskImg ∧
    ∀ files, applyLoop p.2.data files = applyLoop e1.maskImg.data files := by
  obtain ⟨oe1, fo1, nc1, fa1, fb1, si1, mi1⟩ := e1
  obtain ⟨oe2, fo2, nc2, fa2, fb2, si2, mi2⟩ := e2
  cases hoe
  cases hfo
  cases ha
  cases hb
  cases hsi
  cases hmi
  have hs : (deface_image ⟨oe1, fo1, nc1, fa1, fb1, si1, mi1⟩).result.isSome = true := by
    rw [h]
    rfl
  obtain ⟨hoc, hA, hB, outdata, hm⟩ := deface_image_success_inv _ hs
  rw [deface_image_success _ outdata hoc hA hB hm] at h
  have h2 : some ((⟨outdata, si1.affine, si1.header⟩ : Image), mi1) = some p := h
  cases Option.some.inj h2
  refine ⟨?_, rfl, fun _ => rfl⟩
  rw [deface_image_success ⟨oe1, fo1, nc2, fa1, fb1, si1, mi1⟩ outdata hoc hA hB hm]

/-- Witness for C10: the all-success environment with and without cleanup
returns the same result, whose mask component is the in-memory mask. -/
theorem C10_mask_reuse_witness :
    (deface_image envOk2).result = (deface_image envOk).result ∧
    ((deface_image envOk).result.map fun p => p.2.affine) =
      some envOk.maskImg.affine := by
  obtain ⟨p, hp⟩ : ∃ p, (deface_image envOk).result = some p := ⟨_, rfl⟩
  obtain ⟨h1, h2, _⟩ := C10_mask_reuse envOk envOk2 rfl rfl rfl rfl rfl rfl p hp
  constructor
  · rw [h1, hp]
  · rw [hp, Option.map_some', h2]

end Pydeface
